import Mathlib

/-!
Verification of the Samsung-Health-to-Garmin converter (`Converter.py`).

A shallow embedding of the converter's core: the timeline merger
(`merge_location_and_live`) and the XML document builders (`create_lap`,
`create_trackpoint`, `create_root`, `build_xml`).

Modelling conventions:
* Python dicts are association lists (`List (ℤ × MSample)`) preserving
  insertion order; `dict(sorted(...))` is a sort by key.
* Epoch-millisecond timestamps are `ℤ`; JSON numbers are `ℚ`.
* Library string productions never inspected by any property
  (`datetime.strftime` formatting, `str` of a Python float) are modelled by
  deterministic injective stand-in functions (`formatTime`, `pyStrFloat`);
  no theorem below depends on their exact text, only on determinism.
* `float(s)` / `int(s)` on strings are modelled by exact decimal parsers
  returning `Option` (`none` models the Python exception); the exotic float
  forms (exponents, inf/nan) are outside the model, as the repository's
  inputs are plain decimal strings.
* lxml elements are immutable trees `Elem`; in-place mutation (e.g.
  `lap.append(track)` in `build_xml`) is modelled by returning the new value
  of the mutated argument alongside the result.
-/

/-- A merged timeline sample (the per-timestamp dict built by
`merge_location_and_live`): formatted time string, optional coordinates,
optional heart rate, optional cadence. -/
structure MSample where
  time : String
  latitude : Option ℚ := none
  longitude : Option ℚ := none
  heart_rate : Option ℤ := none
  cadence : Option ℚ := none
deriving DecidableEq, Repr

/-- One entry of the location JSON: `start_time` plus optional coordinates
(the converter skips entries lacking either coordinate). -/
structure LocEntry where
  start_time : ℤ
  latitude : Option ℚ := none
  longitude : Option ℚ := none
deriving DecidableEq, Repr

/-- One entry of the live-data JSON: `start_time` plus optional integer
heart rate and optional cadence.  (`int(e["heart_rate"])` in the source is
the identity here because the field is modelled as an integer.) -/
structure LiveEntry where
  start_time : ℤ
  heart_rate : Option ℤ := none
  cadence : Option ℚ := none
deriving DecidableEq, Repr

/-- The timeline: a Python dict from timestamp to sample, as an
insertion-ordered association list. -/
abbrev Timeline := List (ℤ × MSample)

/-- Stand-in for `datetime.fromtimestamp(ts/1000, utc).strftime(...)`:
a deterministic injective function of the timestamp.  No claim inspects
this text. -/
def formatTime (ts : ℤ) : String := toString ts

/-- Python `d[k]` presence test / lookup on the association-list dict. -/
def dictLookup (m : Timeline) (k : ℤ) : Option MSample :=
  (m.find? (fun p => p.1 == k)).map (fun p => p.2)

/-- Python `d[k] = v`: overwrite in place if the key exists (keeping its
position), otherwise append at the end. -/
def dictSet (m : Timeline) (k : ℤ) (v : MSample) : Timeline :=
  if (m.find? (fun p => p.1 == k)).isSome then
    m.map (fun p => if p.1 == k then (p.1, v) else p)
  else
    m ++ [(k, v)]

/-- Update the value at an existing key in place. -/
def dictModify (m : Timeline) (k : ℤ) (f : MSample → MSample) : Timeline :=
  m.map (fun p => if p.1 == k then (p.1, f p.2) else p)

/-- One iteration of the location loop: skip entries lacking a coordinate,
otherwise store a fresh sample with the formatted time and coordinates. -/
def locStep (m : Timeline) (e : LocEntry) : Timeline :=
  match e.latitude, e.longitude with
  | some la, some lo =>
      dictSet m e.start_time
        { time := formatTime e.start_time, latitude := some la, longitude := some lo }
  | _, _ => m

/-- Models `min(merged, key=lambda k: abs(k - ts))`: the first key (in dict
insertion order) minimising the absolute distance to `ts`.  Python's `min`
keeps the earliest minimum, hence the strict comparison. -/
def pyMinKey (ks : List ℤ) (ts : ℤ) : ℤ :=
  match ks with
  | [] => ts
  | k :: rest => rest.foldl (fun best k2 => if |k2 - ts| < |best - ts| then k2 else best) k

/-- Overwrite the sample's heart rate / cadence with the live entry's, when
present (the two trailing `if`s of the live loop). -/
def mergeLive (s : MSample) (e : LiveEntry) : MSample :=
  let s1 := match e.heart_rate with
            | some h => { s with heart_rate := some h }
            | none => s
  match e.cadence with
  | some c => { s1 with cadence := some c }
  | none => s1

/-- Models `if ts not in merged and merged: ts = min(merged, key=...)` — the
timestamp actually used by the live loop for this entry. -/
def liveSnap (m : Timeline) (ts0 : ℤ) : ℤ :=
  if (dictLookup m ts0).isNone ∧ m ≠ [] then pyMinKey (m.map Prod.fst) ts0 else ts0

/-- Models `if ts not in merged: merged[ts] = \x7b"time": ...\x7d` — insert a time-only
sample when the (possibly snapped) key is still absent. -/
def liveInsert (m : Timeline) (ts : ℤ) : Timeline :=
  if (dictLookup m ts).isNone then m ++ [(ts, { time := formatTime ts })] else m

/-- One iteration of the live loop of `merge_location_and_live`:
snap the timestamp to the nearest existing key when absent and the timeline
is non-empty, insert a time-only sample when the key is still absent, then
merge heart rate and cadence at that key. -/
def liveStep (m : Timeline) (e : LiveEntry) : Timeline :=
  dictModify (liveInsert m (liveSnap m e.start_time)) (liveSnap m e.start_time)
    (fun s => mergeLive s e)

/-- Models `dict(sorted(merged.items()))`: sort the timeline by key (keys are
distinct, so which stable by-key sort is used is irrelevant). -/
def sortByKey (m : Timeline) : Timeline :=
  List.insertionSort (fun a b => a.1 ≤ b.1) m

/-- The forward-fill pass: running heart rate starts at 0; each sample's
stored heart rate becomes its own value if present, else the running value,
and the running value is updated to the stored value. -/
def fillHR : ℤ → Timeline → Timeline
  | _, [] => []
  | hr, (k, s) :: rest =>
      let hr2 := s.heart_rate.getD hr
      (k, { s with heart_rate := some hr2 }) :: fillHR hr2 rest

/-- The merged, sorted timeline just before the forward-fill pass. -/
def preMerge (location : List LocEntry) (live : List LiveEntry) : Timeline :=
  sortByKey (live.foldl liveStep (location.foldl locStep []))

/-- Function `merge_location_and_live` from `Converter.py`: location pass, live pass,
sort by timestamp, forward-fill heart rate. -/
def merge_location_and_live (location : List LocEntry) (live : List LiveEntry) : Timeline :=
  fillHR 0 (preMerge location live)

/-- The claim-side ("spec") reading of the forward-fill: the heart rate of
the nearest preceding entry that had one set, otherwise the sentinel 0. -/
def lastSetHR (l : Timeline) : ℤ :=
  match l.reverse.find? (fun p => p.2.heart_rate.isSome) with
  | some p => p.2.heart_rate.getD 0
  | none => 0

/-- The running-value update of the fill loop:
`hr = merged[k].get("heart_rate", hr)`. -/
def stepHR (h : ℤ) (p : ℤ × MSample) : ℤ := p.2.heart_rate.getD h

/-- The running heart-rate value after folding the fill loop over `l`,
starting from `h`. -/
def runHR (h : ℤ) (l : Timeline) : ℤ := l.foldl stepHR h

theorem fillHR_getElem (l : Timeline) (h0 : ℤ) (i : ℕ) :
    (fillHR h0 l)[i]? =
      (l[i]?).map (fun p => (p.1, { p.2 with heart_rate := some (runHR h0 (l.take (i + 1))) })) := by
  induction l generalizing h0 i with
  | nil => simp [fillHR]
  | cons p rest ih =>
    obtain ⟨k, s⟩ := p
    cases i with
    | zero => simp [fillHR, runHR, stepHR]
    | succ n =>
      have := ih (stepHR h0 (k, s)) n
      simpa [fillHR, runHR, stepHR] using this

theorem lastSetHR_eq_runHR (l : Timeline) : lastSetHR l = runHR 0 l := by
  induction l using List.reverseRecOn with
  | nil => simp [lastSetHR, runHR]
  | append_singleton l p ih =>
    cases hp : p.2.heart_rate with
    | none =>
      have h1 : lastSetHR (l ++ [p]) = lastSetHR l := by
        simp [lastSetHR, List.find?, hp]
      rw [h1, ih]
      simp [runHR, List.foldl_append, stepHR, hp]
    | some v =>
      have h1 : lastSetHR (l ++ [p]) = v := by
        simp [lastSetHR, List.find?, hp]
      rw [h1]
      simp [runHR, List.foldl_append, stepHR, hp]

instance : IsTotal (ℤ × MSample) (fun a b => a.1 ≤ b.1) :=
  ⟨fun a b => le_total a.1 b.1⟩

instance : IsTrans (ℤ × MSample) (fun a b => a.1 ≤ b.1) :=
  ⟨fun _ _ _ h1 h2 => le_trans h1 h2⟩

/-- The merged timeline is in ascending timestamp order, so positional
order below is timestamp order. -/
theorem preMerge_sorted (location : List LocEntry) (live : List LiveEntry) :
    (preMerge location live).Pairwise (fun a b => a.1 ≤ b.1) :=
  List.sorted_insertionSort _ _

/-- C1: For every pair of location/live lists, the merged timeline is in
ascending timestamp order and every entry of the timeline returned by
`merge_location_and_live` has a `heart_rate` field equal to the entry's own
merged heart rate if one was set from a live sample, otherwise the heart
rate of the nearest preceding entry that had one set, otherwise the
sentinel 0. -/
theorem merge_forward_fill_characterisation (location : List LocEntry) (live : List LiveEntry)
    (i : ℕ) (k : ℤ) (s : MSample)
    (h : (preMerge location live)[i]? = some (k, s)) :
    (preMerge location live).Pairwise (fun a b => a.1 ≤ b.1)
    ∧ (merge_location_and_live location live)[i]? =
      some (k,
        { s with
          heart_rate := some (s.heart_rate.getD (lastSetHR ((preMerge location live).take i))) }) := by
  refine ⟨preMerge_sorted location live, ?_⟩
  unfold merge_location_and_live
  rw [fillHR_getElem, h, lastSetHR_eq_runHR]
  have ht : (preMerge location live).take (i + 1) =
      (preMerge location live).take i ++ [(k, s)] := by
    rw [List.take_succ, h]
    rfl
  simp [ht, runHR, List.foldl_append, stepHR]

/-- Witness for `merge_forward_fill_characterisation` at a concrete input:
one location fix at 1000, one heart-rate-less live sample merged at a new
key 2500 after the timeline was empty... here simply: location at 1000 and
2000, live heart rate 150 at 1000; entry 1 (key 2000) carries no own heart
rate and receives the nearest preceding set value 150. -/
theorem merge_forward_fill_characterisation_witness :
    (preMerge [⟨1000, some 1, some 2⟩, ⟨2000, some 3, some 4⟩] [⟨1000, some 150, none⟩])[1]? =
      some (2000, { time := formatTime 2000, latitude := some 3, longitude := some 4 }) ∧
    ((preMerge [⟨1000, some 1, some 2⟩, ⟨2000, some 3, some 4⟩]
        [⟨1000, some 150, none⟩]).Pairwise (fun a b => a.1 ≤ b.1)
      ∧ (merge_location_and_live [⟨1000, some 1, some 2⟩, ⟨2000, some 3, some 4⟩]
          [⟨1000, some 150, none⟩])[1]? =
        some (2000, { time := formatTime 2000, latitude := some 3, longitude := some 4,
                      heart_rate := some 150 })) :=
  ⟨by decide, merge_forward_fill_characterisation _ _ 1 2000
    { time := formatTime 2000, latitude := some 3, longitude := some 4 } (by decide)⟩

theorem mem_dictSet {m : Timeline} {k : ℤ} {v : MSample} {q : ℤ × MSample}
    (hq : q ∈ dictSet m k v) : q ∈ m ∨ q.2 = v := by
  unfold dictSet at hq
  by_cases hs : (m.find? (fun p => p.1 == k)).isSome
  · simp only [hs, if_true] at hq
    obtain ⟨p, hp, he⟩ := List.mem_map.mp hq
    by_cases hk : (p.1 == k) = true
    · right; rw [← he]; simp [hk]
    · left; rw [← he]; simp [hk]; exact hp
  · simp only [hs, if_false] at hq
    rcases List.mem_append.mp hq with h | h
    · exact Or.inl h
    · right; simp at h; rw [h]

theorem mem_dictModify {m : Timeline} {k : ℤ} {f : MSample → MSample} {q : ℤ × MSample}
    (hq : q ∈ dictModify m k f) : ∃ p ∈ m, q = p ∨ q = (p.1, f p.2) := by
  unfold dictModify at hq
  obtain ⟨p, hp, he⟩ := List.mem_map.mp hq
  refine ⟨p, hp, ?_⟩
  by_cases hk : (p.1 == k) = true
  · right; rw [← he]; simp [hk]
  · left; rw [← he]; simp [hk]

theorem mem_liveInsert {m : Timeline} {ts : ℤ} {q : ℤ × MSample}
    (hq : q ∈ liveInsert m ts) : q ∈ m ∨ q.2 = { time := formatTime ts } := by
  unfold liveInsert at hq
  by_cases hs : (dictLookup m ts).isNone
  · simp only [hs, if_true] at hq
    rcases List.mem_append.mp hq with h | h
    · exact Or.inl h
    · right; simp at h; rw [h]
  · simp only [hs, if_false] at hq
    exact Or.inl hq

theorem mergeLive_heart_rate (s : MSample) (e : LiveEntry) :
    (mergeLive s e).heart_rate = s.heart_rate ∨ (mergeLive s e).heart_rate = e.heart_rate := by
  unfold mergeLive
  cases e.heart_rate <;> cases e.cadence <;> simp

/-- The location pass only creates samples without a heart rate, so any
heart-rate invariant holds of its output. -/
theorem locStep_hr_inv {P : Option ℤ → Prop} (hnone : P none) {m : Timeline} {e : LocEntry}
    (hm : ∀ p ∈ m, P p.2.heart_rate) : ∀ p ∈ locStep m e, P p.2.heart_rate := by
  intro q hq
  unfold locStep at hq
  cases hla : e.latitude with
  | none => rw [hla] at hq; exact hm q hq
  | some la =>
    cases hlo : e.longitude with
    | none => rw [hla, hlo] at hq; exact hm q hq
    | some lo =>
      rw [hla, hlo] at hq
      rcases mem_dictSet hq with h | h
      · exact hm q h
      · rw [h]; exact hnone

/-- The live pass only writes heart rates drawn from the live entry. -/
theorem liveStep_hr_inv {P : Option ℤ → Prop} (hnone : P none) {m : Timeline} {e : LiveEntry}
    (hm : ∀ p ∈ m, P p.2.heart_rate) (he : P e.heart_rate) :
    ∀ p ∈ liveStep m e, P p.2.heart_rate := by
  intro q hq
  unfold liveStep at hq
  obtain ⟨p, hp, hqe⟩ := mem_dictModify hq
  have hp2 : P p.2.heart_rate := by
    rcases mem_liveInsert hp with h | h
    · exact hm p h
    · rw [h]; exact hnone
  rcases hqe with h | h
  · rw [h]; exact hp2
  · rw [h]
    rcases mergeLive_heart_rate p.2 e with hme | hme
    · simpa [hme] using hp2
    · simpa [hme] using he

theorem foldl_locStep_hr_inv {P : Option ℤ → Prop} (hnone : P none) :
    ∀ (location : List LocEntry) (m : Timeline), (∀ p ∈ m, P p.2.heart_rate) →
      ∀ p ∈ location.foldl locStep m, P p.2.heart_rate := by
  intro location
  induction location with
  | nil => intro m hm; simpa using hm
  | cons e rest ih =>
    intro m hm
    exact ih (locStep m e) (locStep_hr_inv hnone hm)

theorem foldl_liveStep_hr_inv {P : Option ℤ → Prop} (hnone : P none) :
    ∀ (live : List LiveEntry), (∀ e ∈ live, P e.heart_rate) →
      ∀ (m : Timeline), (∀ p ∈ m, P p.2.heart_rate) →
        ∀ p ∈ live.foldl liveStep m, P p.2.heart_rate := by
  intro live
  induction live with
  | nil => intro _ m hm; simpa using hm
  | cons e rest ih =>
    intro hlive m hm
    exact ih (fun x hx => hlive x (List.mem_cons_of_mem e hx)) (liveStep m e)
      (liveStep_hr_inv hnone hm (hlive e (List.mem_cons_self e rest)))

/-- Every heart rate present in the pre-fill merged timeline comes from a
live entry (or is absent). -/
theorem preMerge_hr_inv {P : Option ℤ → Prop} (hnone : P none)
    {location : List LocEntry} {live : List LiveEntry}
    (hlive : ∀ e ∈ live, P e.heart_rate) :
    ∀ p ∈ preMerge location live, P p.2.heart_rate := by
  intro p hp
  have hperm := List.perm_insertionSort
    (fun a b : ℤ × MSample => a.1 ≤ b.1) (live.foldl liveStep (location.foldl locStep []))
  have hp2 : p ∈ live.foldl liveStep (location.foldl locStep []) := hperm.mem_iff.mp hp
  exact foldl_liveStep_hr_inv hnone live hlive (location.foldl locStep [])
    (foldl_locStep_hr_inv hnone location [] (by simp)) p hp2

theorem runHR_ne_zero {l : Timeline} {h0 : ℤ} (h : h0 ≠ 0)
    (hl : ∀ p ∈ l, p.2.heart_rate ≠ some 0) : runHR h0 l ≠ 0 := by
  induction l generalizing h0 with
  | nil => simpa [runHR] using h
  | cons p rest ih =>
    have hstep : stepHR h0 p ≠ 0 := by
      have hv := hl p (List.mem_cons_self p rest)
      cases hp : p.2.heart_rate with
      | none => simpa [stepHR, hp] using h
      | some v => simpa [stepHR, hp] using fun hv0 => hv (by rw [hp, hv0])
    have : runHR (stepHR h0 p) rest ≠ 0 :=
      ih hstep (fun q hq => hl q (List.mem_cons_of_mem p hq))
    simpa [runHR] using this

/-- C3, amended: Provided no live sample carries a zero heart rate,
once any sample at or before position `i` of the merged timeline has a
non-zero heart rate, every sample at position `j ≥ i` has a non-zero heart
rate equal to its own merged value if it carries one, otherwise the most
recent preceding merged value.  (The original claim, stated for *all*
inputs, is refuted by `merge_forward_fill_monotone_cex`: a live sample
whose own heart rate is the integer 0 re-zeroes the running value.) -/
theorem merge_forward_fill_monotone (location : List LocEntry) (live : List LiveEntry)
    (hlive : ∀ e ∈ live, e.heart_rate ≠ some 0)
    (i j : ℕ) (hij : i ≤ j) (ki kj : ℤ) (si sj : MSample)
    (hi : (merge_location_and_live location live)[i]? = some (ki, si))
    (hj : (preMerge location live)[j]? = some (kj, sj))
    (hnz : si.heart_rate ≠ some 0) :
    (merge_location_and_live location live)[j]? =
      some (kj,
        { sj with
          heart_rate := some (sj.heart_rate.getD (lastSetHR ((preMerge location live).take j))) })
    ∧ sj.heart_rate.getD (lastSetHR ((preMerge location live).take j)) ≠ 0 := by
  have hpre : ∀ p ∈ preMerge location live, p.2.heart_rate ≠ some 0 :=
    preMerge_hr_inv (P := fun o => o ≠ some 0) (by decide) hlive
  have htj : (preMerge location live).take (j + 1) =
      (preMerge location live).take j ++ [(kj, sj)] := by
    rw [List.take_succ, hj]; rfl
  have hvj : sj.heart_rate.getD (lastSetHR ((preMerge location live).take j)) =
      runHR 0 ((preMerge location live).take (j + 1)) := by
    rw [lastSetHR_eq_runHR, htj]
    simp [runHR, List.foldl_append, stepHR]
  constructor
  · unfold merge_location_and_live
    rw [fillHR_getElem, hj, hvj]
    rfl
  · -- extract the running value at position i from hi
    rw [hvj]
    unfold merge_location_and_live at hi
    rw [fillHR_getElem] at hi
    cases hpi : (preMerge location live)[i]? with
    | none => rw [hpi] at hi; simp at hi
    | some p =>
      rw [hpi] at hi
      simp only [Option.map_some] at hi
      have hsi : si = { p.2 with
          heart_rate := some (runHR 0 ((preMerge location live).take (i + 1))) } := by
        have := congrArg (fun q : ℤ × MSample => q.2) (Option.some.inj hi)
        exact this.symm
      have hri : runHR 0 ((preMerge location live).take (i + 1)) ≠ 0 := by
        intro h0
        apply hnz
        rw [hsi, h0]
      -- decompose take (j+1) as take (i+1) ++ (a middle slice)
      have hsplit : (preMerge location live).take (j + 1) =
          (preMerge location live).take (i + 1) ++
            ((preMerge location live).take (j + 1)).drop (i + 1) := by
        conv_lhs => rw [← List.take_append_drop (i + 1) ((preMerge location live).take (j + 1))]
        rw [List.take_take]
        congr 2
        omega
      rw [hsplit]
      unfold runHR
      rw [List.foldl_append]
      refine runHR_ne_zero hri ?_
      intro q hq
      exact hpre q (List.mem_of_mem_take (List.mem_of_mem_drop hq))

/-- Witness for `merge_forward_fill_monotone`: two location fixes, one live
heart rate 150 at the first; the filled value at position 1 is the non-zero
150. -/
theorem merge_forward_fill_monotone_witness :
    (merge_location_and_live [⟨1000, some 1, some 2⟩, ⟨2000, some 3, some 4⟩]
        [⟨1000, some 150, none⟩])[1]? =
      some (2000, { time := formatTime 2000, latitude := some 3, longitude := some 4,
                    heart_rate := some 150 })
    ∧ (({ time := formatTime 2000, latitude := some 3, longitude := some 4 } :
        MSample).heart_rate.getD
          (lastSetHR ((preMerge [⟨1000, some 1, some 2⟩, ⟨2000, some 3, some 4⟩]
            [⟨1000, some 150, none⟩]).take 1))) ≠ 0 := by
  have h := merge_forward_fill_monotone
    [⟨1000, some 1, some 2⟩, ⟨2000, some 3, some 4⟩] [⟨1000, some 150, none⟩]
    (by decide) 0 1 (by decide) 1000 2000
    { time := formatTime 1000, latitude := some 1, longitude := some 2, heart_rate := some 150 }
    { time := formatTime 2000, latitude := some 3, longitude := some 4 }
    (by decide) (by decide) (by decide)
  exact ⟨h.1.trans (by decide), h.2⟩

/-- C3, counterexample to the original claim: With a live sample whose
own heart rate is 0, the merged timeline has a non-zero heart rate (150) at
position 0 but a zero heart rate at position 1, refuting "every sample at
position ≥ i has a non-zero heart rate". -/
theorem merge_forward_fill_monotone_cex :
    merge_location_and_live [⟨1000, some 1, some 2⟩, ⟨2000, some 3, some 4⟩]
        [⟨1000, some 150, none⟩, ⟨2000, some 0, none⟩] =
      [(1000, { time := formatTime 1000, latitude := some 1, longitude := some 2,
                heart_rate := some 150 }),
       (2000, { time := formatTime 2000, latitude := some 3, longitude := some 4,
                heart_rate := some 0 })]
    ∧ (150 : ℤ) ≠ 0 := by
  constructor
  · decide
  · decide

theorem foldl_minKey_mem (ts : ℤ) :
    ∀ (rest : List ℤ) (k : ℤ),
      rest.foldl (fun best k2 => if |k2 - ts| < |best - ts| then k2 else best) k ∈ k :: rest := by
  intro rest
  induction rest with
  | nil => intro k; simp
  | cons x xs ih =>
    intro k
    simp only [List.foldl_cons]
    rcases List.mem_cons.mp (ih (if |x - ts| < |k - ts| then x else k)) with h | h
    · by_cases hc : |x - ts| < |k - ts|
      · rw [h]; simp [hc]
      · rw [h]; simp [hc]
    · simp [List.mem_cons, h]

theorem foldl_minKey_min (ts : ℤ) :
    ∀ (rest : List ℤ) (k : ℤ) (x : ℤ), x ∈ k :: rest →
      |rest.foldl (fun best k2 => if |k2 - ts| < |best - ts| then k2 else best) k - ts| ≤
        |x - ts| := by
  intro rest
  induction rest with
  | nil =>
    intro k x hx
    simp at hx
    simp [hx]
  | cons y ys ih =>
    intro k x hx
    simp only [List.foldl_cons]
    have hself : |ys.foldl (fun best k2 => if |k2 - ts| < |best - ts| then k2 else best)
        (if |y - ts| < |k - ts| then y else k) - ts| ≤
          |(if |y - ts| < |k - ts| then y else k) - ts| :=
      ih _ _ (List.mem_cons_self _ _)
    have hky : |(if |y - ts| < |k - ts| then y else k) - ts| ≤ |k - ts| ∧
        |(if |y - ts| < |k - ts| then y else k) - ts| ≤ |y - ts| := by
      by_cases hc : |y - ts| < |k - ts| <;> simp [hc] <;> omega
    rcases List.mem_cons.mp hx with h | h
    · rw [h]
      exact le_trans hself hky.1
    · rcases List.mem_cons.mp h with h2 | h2
      · rw [h2]
        exact le_trans hself hky.2
      · exact ih _ x (List.mem_cons_of_mem _ h2)

theorem pyMinKey_mem {ks : List ℤ} (ts : ℤ) (h : ks ≠ []) : pyMinKey ks ts ∈ ks := by
  cases ks with
  | nil => exact absurd rfl h
  | cons k rest => exact foldl_minKey_mem ts rest k

theorem pyMinKey_min {ks : List ℤ} (ts : ℤ) {x : ℤ} (hx : x ∈ ks) :
    |pyMinKey ks ts - ts| ≤ |x - ts| := by
  cases ks with
  | nil => simp at hx
  | cons k rest => exact foldl_minKey_min ts rest k x hx

/-- On a strictly ascending key list, a tie in distance is resolved to the
smaller key (which is also the earlier one in iteration order). -/
theorem pyMinKey_tie_least (ts : ℤ) :
    ∀ (t : List ℤ) (h : ℤ), (h :: t).Pairwise (· < ·) →
      ∀ x ∈ h :: t, |x - ts| = |pyMinKey (h :: t) ts - ts| → pyMinKey (h :: t) ts ≤ x := by
  intro t
  induction t with
  | nil =>
    intro h _ x hx _
    simp at hx
    simp [pyMinKey, hx]
  | cons b t2 ih =>
    intro h hs x hx htie
    rcases List.pairwise_cons.mp hs with ⟨hh, hbt⟩
    rcases List.pairwise_cons.mp hbt with ⟨hb, ht2⟩
    have hsorth : (h :: t2).Pairwise (· < ·) :=
      List.pairwise_cons.mpr
        ⟨fun y hy => lt_trans (hh b (List.mem_cons_self b t2)) (hb y hy), ht2⟩
    have hstep : pyMinKey (h :: b :: t2) ts =
        pyMinKey ((if |b - ts| < |h - ts| then b else h) :: t2) ts := by
      simp [pyMinKey, List.foldl_cons]
    by_cases hc : |b - ts| < |h - ts|
    · have hstep2 : pyMinKey (h :: b :: t2) ts = pyMinKey (b :: t2) ts := by
        rw [hstep, if_pos hc]
      rw [hstep2] at htie ⊢
      rcases List.mem_cons.mp hx with hxh | hxbt
      · exfalso
        have hmin : |pyMinKey (b :: t2) ts - ts| ≤ |b - ts| :=
          pyMinKey_min ts (List.mem_cons_self b t2)
        rw [hxh] at htie
        omega
      · exact ih b hbt x hxbt htie
    · have hstep2 : pyMinKey (h :: b :: t2) ts = pyMinKey (h :: t2) ts := by
        rw [hstep, if_neg hc]
      rw [hstep2] at htie ⊢
      rcases List.mem_cons.mp hx with hxh | hxbt
      · rw [hxh]
        exact ih h hsorth h (List.mem_cons_self h t2) (by rw [hxh] at htie; exact htie)
      · rcases List.mem_cons.mp hxbt with hxb | hxt2
        · have hmin : |pyMinKey (h :: t2) ts - ts| ≤ |h - ts| :=
            pyMinKey_min ts (List.mem_cons_self h t2)
          have hhb : h < b := hh b (List.mem_cons_self b t2)
          have htieh : |h - ts| = |pyMinKey (h :: t2) ts - ts| := by
            rw [hxb] at htie
            omega
          have hle := ih h hsorth h (List.mem_cons_self h t2) htieh
          rw [hxb]
          omega
        · exact ih h hsorth x (List.mem_cons_of_mem h hxt2) htie

theorem dictLookup_isSome_of_mem {m : Timeline} {k : ℤ} (h : k ∈ m.map Prod.fst) :
    (dictLookup m k).isSome := by
  obtain ⟨p, hp, hpk⟩ := List.mem_map.mp h
  have hf : (m.find? (fun q => q.1 == k)).isSome :=
    List.find?_isSome.mpr ⟨p, hp, by simp [hpk]⟩
  unfold dictLookup
  cases hfe : m.find? (fun q => q.1 == k) with
  | none => rw [hfe] at hf; simp at hf
  | some p2 => simp

/-- C2, amended: When a live sample's timestamp is not a key and the
timeline is non-empty, the live loop merges the sample's heart rate and
cadence into the existing key `pyMinKey` — a key of the timeline minimising
the absolute timestamp difference.  Among equidistant keys the first one in
the timeline's insertion order wins; only when the keys are in strictly
ascending order (e.g. location samples arrived in ascending timestamp
order) do ties resolve to the smaller key.  (The unconditional
smaller-key tie-break of the original claim is refuted by
`merge_nearest_snap_cex`.) -/
theorem merge_nearest_snap (m : Timeline) (e : LiveEntry)
    (habs : dictLookup m e.start_time = none) (hne : m ≠ []) :
    liveStep m e =
      dictModify m (pyMinKey (m.map Prod.fst) e.start_time) (fun s => mergeLive s e)
    ∧ pyMinKey (m.map Prod.fst) e.start_time ∈ m.map Prod.fst
    ∧ (∀ k ∈ m.map Prod.fst,
        |pyMinKey (m.map Prod.fst) e.start_time - e.start_time| ≤ |k - e.start_time|)
    ∧ ((m.map Prod.fst).Pairwise (· < ·) →
        ∀ k ∈ m.map Prod.fst,
          |k - e.start_time| = |pyMinKey (m.map Prod.fst) e.start_time - e.start_time| →
            pyMinKey (m.map Prod.fst) e.start_time ≤ k) := by
  have hmapne : m.map Prod.fst ≠ [] := by
    intro hmap
    exact hne (List.map_eq_nil_iff.mp hmap)
  have hmem : pyMinKey (m.map Prod.fst) e.start_time ∈ m.map Prod.fst :=
    pyMinKey_mem _ hmapne
  have hsnap : liveSnap m e.start_time = pyMinKey (m.map Prod.fst) e.start_time := by
    have hcond : (dictLookup m e.start_time).isNone ∧ m ≠ [] := ⟨by rw [habs]; rfl, hne⟩
    unfold liveSnap
    rw [if_pos hcond]
  have hins : liveInsert m (pyMinKey (m.map Prod.fst) e.start_time) = m := by
    have hsome := dictLookup_isSome_of_mem hmem
    unfold liveInsert
    rw [if_neg]
    intro h2
    rw [Option.isNone_iff_eq_none] at h2
    rw [h2] at hsome
    simp at hsome
  refine ⟨?_, hmem, fun k hk => pyMinKey_min _ hk, ?_⟩
  · unfold liveStep
    rw [hsnap, hins]
  · intro hsort k hk htie
    cases hmap : m.map Prod.fst with
    | nil => rw [hmap] at hk; simp at hk
    | cons a t =>
      rw [hmap] at hsort hk htie
      exact pyMinKey_tie_least e.start_time t a hsort k hk htie

/-- C2, counterexample to the original claim: A live sample at 2000 is
equidistant from keys 1000 and 3000.  The location samples were inserted
with 3000 first, so Python's `min` (which keeps the first minimum in
insertion order) merges the heart rate 7 into key 3000, not into the
smaller key 1000 demanded by the claim; key 1000 keeps no own heart rate
and forward-fills to 0. -/
theorem merge_nearest_snap_cex :
    merge_location_and_live [⟨3000, some 1, some 2⟩, ⟨1000, some 3, some 4⟩]
        [⟨2000, some 7, none⟩] =
      [(1000, { time := formatTime 1000, latitude := some 3, longitude := some 4,
                heart_rate := some 0 }),
       (3000, { time := formatTime 3000, latitude := some 1, longitude := some 2,
                heart_rate := some 7 })]
    ∧ |(3000 : ℤ) - 2000| = |(1000 : ℤ) - 2000| ∧ (1000 : ℤ) < 3000 :=
  ⟨by decide, by decide, by decide⟩

/-- Concrete timeline for the `merge_nearest_snap` witness. -/
def c2m : Timeline :=
  [(1000, { time := formatTime 1000, latitude := some 1, longitude := some 2 }),
   (3000, { time := formatTime 3000, latitude := some 3, longitude := some 4 })]

/-- Concrete live entry for the `merge_nearest_snap` witness. -/
def c2e : LiveEntry := ⟨1400, some 140, none⟩

/-- Witness for `merge_nearest_snap`: a timeline with keys 1000 and 3000
and a live sample at 1400, which snaps to 1000. -/
theorem merge_nearest_snap_witness :
    liveStep c2m c2e =
      dictModify c2m (pyMinKey (c2m.map Prod.fst) c2e.start_time) (fun s => mergeLive s c2e)
    ∧ pyMinKey (c2m.map Prod.fst) c2e.start_time ∈ c2m.map Prod.fst
    ∧ (∀ k ∈ c2m.map Prod.fst,
        |pyMinKey (c2m.map Prod.fst) c2e.start_time - c2e.start_time| ≤ |k - c2e.start_time|)
    ∧ ((c2m.map Prod.fst).Pairwise (· < ·) →
        ∀ k ∈ c2m.map Prod.fst,
          |k - c2e.start_time| =
            |pyMinKey (c2m.map Prod.fst) c2e.start_time - c2e.start_time| →
            pyMinKey (c2m.map Prod.fst) c2e.start_time ≤ k) :=
  merge_nearest_snap c2m c2e (by decide) (by decide)

/-- An lxml element: tag, attributes, optional text, children.  Namespaced
tags (`XML.QName`) are modelled as prefixed tag strings. -/
inductive Elem where
  | mk (tag : String) (attrs : List (String × String)) (text : Option String)
      (children : List Elem)

def Elem.tag : Elem → String
  | .mk t _ _ _ => t

def Elem.attrs : Elem → List (String × String)
  | .mk _ a _ _ => a

def Elem.text : Elem → Option String
  | .mk _ _ x _ => x

def Elem.children : Elem → List Elem
  | .mk _ _ _ c => c

/-- lxml `parent.append(child)` (on the value of the parent). -/
def Elem.appendChild : Elem → Elem → Elem
  | .mk t a x c, child => .mk t a x (c ++ [child])

/-- Models `XML.SubElement(parent, tag).text = txt`: a leaf element with text. -/
def textElem (tag txt : String) : Elem := .mk tag [] (some txt) []

def serializeAttrs (l : List (String × String)) : String :=
  l.foldl (fun acc a => acc ++ " " ++ a.1 ++ "=\"" ++ a.2 ++ "\"") ""

mutual
/-- Serialization of an element, standing in for `XML.tostring`
(pretty-printing whitespace is not modelled; the function is injective on
the tree structure, which is all the properties below use). -/
def serializeElem : Elem → String
  | .mk t attrs txt kids =>
      "<" ++ t ++ serializeAttrs attrs ++ ">" ++ txt.getD "" ++ serializeKids kids
        ++ "</" ++ t ++ ">"

def serializeKids : List Elem → String
  | [] => ""
  | e :: es => serializeElem e ++ serializeKids es
end

/-- Models `XML.tostring(root, ..., encoding="utf-8", xml_declaration=True)`. -/
def serializeDoc (root : Elem) : String :=
  "<?xml version=1.0 encoding=utf-8?>" ++ serializeElem root

/-- Numeric value of a digit string (most significant first). -/
def digitsToNat (cs : List Char) : ℕ :=
  cs.foldl (fun n c => 10 * n + (c.toNat - 48)) 0

def allDigits (cs : List Char) : Bool := cs.all (fun c => c.isDigit)

/-- Split a character list at the first dot. -/
def splitDot : List Char → List Char × Option (List Char)
  | [] => ([], none)
  | c :: r =>
      if c = '.' then ([], some r)
      else
        let (a, b) := splitDot r
        (c :: a, b)

/-- Python `float(s)` on plain decimal strings `[+-]?ddd(.ddd)?` (either
digit group may be empty but not both), as an exact rational; `none` models
the `ValueError` on anything else.  Exponent/`inf`/`nan` forms are outside
the model. -/
def pyFloat (s : String) : Option ℚ :=
  let (sg, cs) : ℤ × List Char :=
    match s.data with
    | '-' :: r => (-1, r)
    | '+' :: r => (1, r)
    | r => (1, r)
  match splitDot cs with
  | (ip, none) =>
      if ip ≠ [] ∧ allDigits ip then some (mkRat (sg * (digitsToNat ip : ℤ)) 1) else none
  | (ip, some fp) =>
      if (ip ≠ [] ∨ fp ≠ []) ∧ allDigits ip ∧ allDigits fp then
        some (mkRat (sg * ((digitsToNat ip * 10 ^ fp.length + digitsToNat fp : ℕ) : ℤ))
          (10 ^ fp.length))
      else none

/-- Python `int(s)` on strings: `[+-]?ddd` only. -/
def pyIntStr (s : String) : Option ℤ :=
  let (sg, cs) : ℤ × List Char :=
    match s.data with
    | '-' :: r => (-1, r)
    | '+' :: r => (1, r)
    | r => (1, r)
  if cs ≠ [] ∧ allDigits cs then some (sg * (digitsToNat cs : ℤ)) else none

/-- Python `int(x)` on a float/rational: truncation toward zero. -/
def truncQ (q : ℚ) : ℤ :=
  if q.num < 0 then -((q.num.natAbs / q.den : ℕ) : ℤ) else ((q.num.natAbs / q.den : ℕ) : ℤ)

/-- The claim-side reading of "rounded to the nearest integer"
(half away from zero; `q.num < 0` iff `q < 0`, and
`mkRat (2*n + d) (2*d)` is `n/d + 1/2` exactly), used only to state the C6
counterexample. -/
def specRoundNearest (q : ℚ) : ℤ :=
  if q.num < 0 then -truncQ (mkRat (2 * (-q.num) + (q.den : ℤ)) (2 * q.den))
  else truncQ (mkRat (2 * q.num + (q.den : ℤ)) (2 * q.den))

/-- Stand-in for Python `str()` of a float-valued number: a deterministic
injective rendering of the rational.  No claim inspects this text. -/
def pyStrFloat (q : ℚ) : String := toString q

/-- Function `ns3_tag` from `Converter.py`: a QName in the ActivityExtension
namespace, modelled as a prefixed tag string. -/
def ns3_tag (name : String) : String := "ns3:" ++ name

/-- Models `if duration: SubElement(lap, "TotalTimeSeconds").text = str(int(duration) / 1000)`. -/
def durPiece (duration : String) : Option (List Elem) :=
  if duration = "" then some []
  else (pyIntStr duration).map fun (d : ℤ) =>
    [textElem "TotalTimeSeconds" (pyStrFloat (mkRat d 1000))]

/-- Models `if distance: SubElement(lap, "DistanceMeters").text = distance`. -/
def distPiece (distance : String) : List Elem :=
  if distance = "" then [] else [textElem "DistanceMeters" distance]

/-- Models `if calories: SubElement(lap, "Calories").text = str(int(float(calories)))`. -/
def calPiece (calories : String) : Option (List Elem) :=
  if calories = "" then some []
  else (pyFloat calories).map fun q => [textElem "Calories" (toString (truncQ q))]

/-- Models `if v and v != "0.0":` emitting `<tag><Value>str(int(float(v)))</Value></tag>`
(used for both AverageHeartRateBpm and MaximumHeartRateBpm). -/
def hrPiece (tag v : String) : Option (List Elem) :=
  if v ≠ "" ∧ v ≠ "0.0" then
    (pyFloat v).map fun q => [Elem.mk tag [] none [textElem "Value" (toString (truncQ q))]]
  else some []

/-- Models `if avg_speed or avg_cadence:` emitting Extensions/LX with the two guarded
sub-elements. -/
def extPiece (avg_speed avg_cadence : String) : List Elem :=
  if avg_speed ≠ "" ∨ avg_cadence ≠ "" then
    [Elem.mk "Extensions" [] none
      [Elem.mk (ns3_tag "LX") [] none
        ((if avg_speed ≠ "" ∧ avg_speed ≠ "0.0" then
            [textElem (ns3_tag "AvgSpeed") avg_speed] else [])
          ++ (if avg_cadence ≠ "" ∧ avg_cadence ≠ "0.0" then
              [textElem (ns3_tag "AvgRunCadence") avg_cadence] else []))]]
  else []

/-- Function `create_lap` from `Converter.py`.  `none` models a Python exception in
one of the numeric conversions.  `max_speed` and `max_cadence` are accepted
and unused, as in the source. -/
def create_lap (start_time duration distance calories : String)
    (avg_hr max_hr avg_speed max_speed avg_cadence max_cadence : String) :
    Option Elem := do
  let dur ← durPiece duration
  let cal ← calPiece calories
  let ahr ← hrPiece "AverageHeartRateBpm" avg_hr
  let mhr ← hrPiece "MaximumHeartRateBpm" max_hr
  pure (Elem.mk "Lap" [("StartTime", start_time)] none
    (dur ++ distPiece distance ++ cal ++ ahr ++ mhr
      ++ [textElem "Intensity" "Active", textElem "TriggerMethod" "Manual"]
      ++ extPiece avg_speed avg_cadence))

/-- Models `if "latitude" in d and "longitude" in d:` — the Position child,
present only when both coordinates are. -/
def posPart (d : MSample) : List Elem :=
  match d.latitude, d.longitude with
  | some la, some lo =>
      [Elem.mk "Position" [] none
        [textElem "LatitudeDegrees" (pyStrFloat la),
         textElem "LongitudeDegrees" (pyStrFloat lo)]]
  | _, _ => []

/-- Models `if "heart_rate" in d:` — the HeartRateBpm child. -/
def hrPart (d : MSample) : List Elem :=
  match d.heart_rate with
  | some h => [Elem.mk "HeartRateBpm" [] none [textElem "Value" (toString h)]]
  | none => []

/-- Models `if "cadence" in d:` — the Cadence child. -/
def cadPart (d : MSample) : List Elem :=
  match d.cadence with
  | some c => [textElem "Cadence" (pyStrFloat c)]
  | none => []

/-- The trackpoint element as constructed by `create_trackpoint`, before
the size check: Time always; Position only when both coordinates are
present; HeartRateBpm/Cadence when present. -/
def trackpointElem (d : MSample) : Elem :=
  Elem.mk "Trackpoint" [] none
    ([textElem "Time" d.time] ++ posPart d ++ hrPart d ++ cadPart d)

/-- Function `create_trackpoint` from `Converter.py`:
`return tp if len(tp) > 1 else None`. -/
def create_trackpoint (d : MSample) : Option Elem :=
  if 1 < (trackpointElem d).children.length then some (trackpointElem d) else none

/-- The namespace table of `Converter.py` (constant; kept for fidelity,
the builders use prefixed tag strings). -/
def nsmap : List (Option String × String) :=
  [(none, "http://www.garmin.com/xmlschemas/TrainingCenterDatabase/v2"),
   (some "ns2", "http://www.garmin.com/xmlschemas/UserProfile/v2"),
   (some "ns3", "http://www.garmin.com/xmlschemas/ActivityExtension/v2"),
   (some "ns4", "http://www.garmin.com/xmlschemas/ProfileExtension/v1"),
   (some "ns5", "http://www.garmin.com/xmlschemas/ActivityGoals/v1"),
   (some "xsi", "http://www.w3.org/2001/XMLSchema-instance")]

/-- The root attributes of `create_root`: the xsi:schemaLocation QName
attribute and the version. -/
def rootAttrs : List (String × String) :=
  [("xsi:schemaLocation",
    "http://www.garmin.com/xmlschemas/TrainingCenterDatabase/v2 http://www.garmin.com/xmlschemas/TrainingCenterDatabasev2.xsd"),
   ("version", "1.1")]

/-- Function `create_root` from `Converter.py`: the TrainingCenterDatabase root with
an empty Activities child. -/
def create_root : Elem :=
  Elem.mk "TrainingCenterDatabase" rootAttrs none [Elem.mk "Activities" [] none []]

/-- Function `build_xml` from `Converter.py`.  The source mutates `lap` in place
(`lap.append(track)` when the track is non-empty); the value of the mutated
lap is returned as the second component.  The returned string serializes
the document built around that mutated lap. -/
def build_xml (a_id sport : String) (lap : Elem) (trackpoints : List (Option Elem)) :
    String × Elem :=
  let track := Elem.mk "Track" [] none (trackpoints.filterMap id)
  let lap2 := if track.children.isEmpty then lap else lap.appendChild track
  let act := Elem.mk "Activity" [("Sport", sport)] none [textElem "Id" a_id, lap2]
  let root := Elem.mk "TrainingCenterDatabase" rootAttrs none
    [Elem.mk "Activities" [] none [act]]
  (serializeDoc root, lap2)

/-- Number of direct children of `e` with tag `t`. -/
def countTag (e : Elem) (t : String) : ℕ :=
  (e.children.filter (fun c => c.tag == t)).length

/-- Whether `e` has a direct child with tag `t`. -/
def hasChildTag (e : Elem) (t : String) : Bool :=
  e.children.any (fun c => c.tag == t)

/-- The texts of the direct children of `e` with tag `t`. -/
def tagTexts (e : Elem) (t : String) : List (Option String) :=
  e.children.filterMap (fun c => if c.tag == t then some c.text else none)

/-- The tags of the grandchildren reached through an Extensions child (the
contents of the LX block). -/
def extInnerTags (lap : Elem) : List String :=
  (((lap.children.filter (fun c => c.tag == "Extensions")).bind
    (fun e => e.children)).bind (fun lx => lx.children)).map Elem.tag

theorem create_lap_shape {start_time duration distance calories : String}
    {avg_hr max_hr avg_speed max_speed avg_cadence max_cadence : String} {lap : Elem}
    (h : create_lap start_time duration distance calories avg_hr max_hr avg_speed
        max_speed avg_cadence max_cadence = some lap) :
    ∃ dur cal ahr mhr,
      durPiece duration = some dur ∧ calPiece calories = some cal ∧
      hrPiece "AverageHeartRateBpm" avg_hr = some ahr ∧
      hrPiece "MaximumHeartRateBpm" max_hr = some mhr ∧
      lap = Elem.mk "Lap" [("StartTime", start_time)] none
        (dur ++ distPiece distance ++ cal ++ ahr ++ mhr
          ++ [textElem "Intensity" "Active", textElem "TriggerMethod" "Manual"]
          ++ extPiece avg_speed avg_cadence) := by
  simp only [create_lap, bind, Option.bind_eq_some, pure, Option.some.injEq] at h
  obtain ⟨dur, hdur, cal, hcal, ahr, hahr, mhr, hmhr, hlap⟩ := h
  exact ⟨dur, cal, ahr, mhr, hdur, hcal, hahr, hmhr, hlap.symm⟩

theorem durPiece_spec {duration : String} {l : List Elem}
    (h : durPiece duration = some l) :
    (duration = "" → l = []) ∧
    (duration ≠ "" → ∃ d, pyIntStr duration = some d ∧
      l = [textElem "TotalTimeSeconds" (pyStrFloat (mkRat d 1000))]) := by
  unfold durPiece at h
  by_cases hd : duration = ""
  · rw [if_pos hd] at h
    exact ⟨fun _ => (Option.some.inj h).symm, fun hne => absurd hd hne⟩
  · rw [if_neg hd] at h
    cases hp : pyIntStr duration with
    | none => rw [hp] at h; simp at h
    | some d =>
      rw [hp] at h
      simp only [Option.map_some', Option.some.injEq] at h
      exact ⟨fun he => absurd he hd, fun _ => ⟨d, rfl, h.symm⟩⟩

theorem calPiece_spec {calories : String} {l : List Elem}
    (h : calPiece calories = some l) :
    (calories = "" → l = []) ∧
    (calories ≠ "" → ∃ q, pyFloat calories = some q ∧
      l = [textElem "Calories" (toString (truncQ q))]) := by
  unfold calPiece at h
  by_cases hc : calories = ""
  · rw [if_pos hc] at h
    exact ⟨fun _ => (Option.some.inj h).symm, fun hne => absurd hc hne⟩
  · rw [if_neg hc] at h
    cases hp : pyFloat calories with
    | none => rw [hp] at h; simp at h
    | some q =>
      rw [hp] at h
      simp only [Option.map_some', Option.some.injEq] at h
      exact ⟨fun he => absurd he hc, fun _ => ⟨q, rfl, h.symm⟩⟩

theorem hrPiece_spec {tag v : String} {l : List Elem}
    (h : hrPiece tag v = some l) :
    (¬(v ≠ "" ∧ v ≠ "0.0") → l = []) ∧
    ((v ≠ "" ∧ v ≠ "0.0") → ∃ q, pyFloat v = some q ∧
      l = [Elem.mk tag [] none [textElem "Value" (toString (truncQ q))]]) := by
  unfold hrPiece at h
  by_cases hc : v ≠ "" ∧ v ≠ "0.0"
  · rw [if_pos hc] at h
    cases hp : pyFloat v with
    | none => rw [hp] at h; simp at h
    | some q =>
      rw [hp] at h
      simp only [Option.map_some', Option.some.injEq] at h
      exact ⟨fun hn => absurd hc hn, fun _ => ⟨q, rfl, h.symm⟩⟩
  · rw [if_neg hc] at h
    exact ⟨fun _ => (Option.some.inj h).symm, fun hp => absurd hp hc⟩

theorem distPiece_spec (distance : String) :
    (distance = "" → distPiece distance = []) ∧
    (distance ≠ "" → distPiece distance = [textElem "DistanceMeters" distance]) := by
  unfold distPiece
  by_cases hd : distance = ""
  · rw [if_pos hd]
    exact ⟨fun _ => rfl, fun hne => absurd hd hne⟩
  · rw [if_neg hd]
    exact ⟨fun he => absurd he hd, fun _ => rfl⟩

theorem any_tag_eq_false {l : List Elem} {t t2 : String} (hl : ∀ c ∈ l, c.tag = t2)
    (hne : t2 ≠ t) : l.any (fun c => c.tag == t) = false := by
  rw [List.any_eq_false]
  intro c hc
  simp [hl c hc, hne]

theorem durPiece_tags {duration : String} {l : List Elem} (h : durPiece duration = some l) :
    ∀ c ∈ l, c.tag = "TotalTimeSeconds" := by
  obtain ⟨h1, h2⟩ := durPiece_spec h
  by_cases hd : duration = ""
  · rw [h1 hd]; intro c hc; simp at hc
  · obtain ⟨d, hd2, hl⟩ := h2 hd
    rw [hl]; intro c hc; simp at hc; rw [hc]; rfl

theorem calPiece_tags {calories : String} {l : List Elem} (h : calPiece calories = some l) :
    ∀ c ∈ l, c.tag = "Calories" := by
  obtain ⟨h1, h2⟩ := calPiece_spec h
  by_cases hc : calories = ""
  · rw [h1 hc]; intro c hcc; simp at hcc
  · obtain ⟨q, hq, hl⟩ := h2 hc
    rw [hl]; intro c hcc; simp at hcc; rw [hcc]; rfl

theorem hrPiece_tags {tag v : String} {l : List Elem} (h : hrPiece tag v = some l) :
    ∀ c ∈ l, c.tag = tag := by
  obtain ⟨h1, h2⟩ := hrPiece_spec h
  by_cases hc : v ≠ "" ∧ v ≠ "0.0"
  · obtain ⟨q, hq, hl⟩ := h2 hc
    rw [hl]; intro c hcc; simp at hcc; rw [hcc]; rfl
  · rw [h1 hc]; intro c hcc; simp at hcc

theorem distPiece_tags (distance : String) :
    ∀ c ∈ distPiece distance, c.tag = "DistanceMeters" := by
  by_cases hd : distance = ""
  · rw [(distPiece_spec distance).1 hd]; intro c hc; simp at hc
  · rw [(distPiece_spec distance).2 hd]; intro c hc; simp at hc; rw [hc]; rfl

theorem extPiece_tags (avg_speed avg_cadence : String) :
    ∀ c ∈ extPiece avg_speed avg_cadence, c.tag = "Extensions" := by
  unfold extPiece
  by_cases hc : avg_speed ≠ "" ∨ avg_cadence ≠ ""
  · rw [if_pos hc]; intro c hcc; simp at hcc; rw [hcc]; rfl
  · rw [if_neg hc]; intro c hcc; simp at hcc

theorem filter_tag_eq_nil {l : List Elem} {t t2 : String} (hl : ∀ c ∈ l, c.tag = t2)
    (hne : t2 ≠ t) : l.filter (fun c => c.tag == t) = [] := by
  rw [List.filter_eq_nil_iff]
  intro c hc
  simp [hl c hc, hne]

theorem filterMap_tag_eq_nil {l : List Elem} {t t2 : String} (hl : ∀ c ∈ l, c.tag = t2)
    (hne : t2 ≠ t) :
    l.filterMap (fun c => if c.tag == t then some c.text else none) = [] := by
  rw [List.filterMap_eq_nil_iff]
  intro c hc
  simp [hl c hc, hne]

/-- C10: When the duration, distance or total-calories field is the
empty string, `create_lap` omits the corresponding TotalTimeSeconds,
DistanceMeters or Calories child entirely, while still emitting the Lap
element with its StartTime attribute and the Intensity and TriggerMethod
children. -/
theorem create_lap_empty_fields_omitted
    (start_time duration distance calories avg_hr max_hr avg_speed max_speed
      avg_cadence max_cadence : String) (lap : Elem)
    (h : create_lap start_time duration distance calories avg_hr max_hr avg_speed
        max_speed avg_cadence max_cadence = some lap) :
    (duration = "" → hasChildTag lap "TotalTimeSeconds" = false)
    ∧ (distance = "" → hasChildTag lap "DistanceMeters" = false)
    ∧ (calories = "" → hasChildTag lap "Calories" = false)
    ∧ lap.tag = "Lap"
    ∧ lap.attrs = [("StartTime", start_time)]
    ∧ hasChildTag lap "Intensity" = true
    ∧ hasChildTag lap "TriggerMethod" = true := by
  obtain ⟨dur, cal, ahr, mhr, hdur, hcal, hahr, hmhr, hlap⟩ := create_lap_shape h
  subst hlap
  have hdurT : ∀ t : String, t ≠ "TotalTimeSeconds" →
      dur.any (fun c => c.tag == t) = false :=
    fun t ht => any_tag_eq_false (durPiece_tags hdur) (fun he => ht he.symm)
  have hcalT : ∀ t : String, t ≠ "Calories" → cal.any (fun c => c.tag == t) = false :=
    fun t ht => any_tag_eq_false (calPiece_tags hcal) (fun he => ht he.symm)
  have hahrT : ∀ t : String, t ≠ "AverageHeartRateBpm" →
      ahr.any (fun c => c.tag == t) = false :=
    fun t ht => any_tag_eq_false (hrPiece_tags hahr) (fun he => ht he.symm)
  have hmhrT : ∀ t : String, t ≠ "MaximumHeartRateBpm" →
      mhr.any (fun c => c.tag == t) = false :=
    fun t ht => any_tag_eq_false (hrPiece_tags hmhr) (fun he => ht he.symm)
  have hdistT : ∀ t : String, t ≠ "DistanceMeters" →
      (distPiece distance).any (fun c => c.tag == t) = false :=
    fun t ht => any_tag_eq_false (distPiece_tags distance) (fun he => ht he.symm)
  have hextT : ∀ t : String, t ≠ "Extensions" →
      (extPiece avg_speed avg_cadence).any (fun c => c.tag == t) = false :=
    fun t ht => any_tag_eq_false (extPiece_tags avg_speed avg_cadence) (fun he => ht he.symm)
  refine ⟨?_, ?_, ?_, rfl, rfl, ?_, ?_⟩
  · intro hd
    rw [(durPiece_spec hdur).1 hd]
    simp only [hasChildTag, Elem.children, List.any_append,
      hcalT "TotalTimeSeconds" (by decide), hahrT "TotalTimeSeconds" (by decide),
      hmhrT "TotalTimeSeconds" (by decide), hdistT "TotalTimeSeconds" (by decide),
      hextT "TotalTimeSeconds" (by decide)]
    rfl
  · intro hd
    rw [(distPiece_spec distance).1 hd]
    simp only [hasChildTag, Elem.children, List.any_append,
      hdurT "DistanceMeters" (by decide), hcalT "DistanceMeters" (by decide),
      hahrT "DistanceMeters" (by decide), hmhrT "DistanceMeters" (by decide),
      hextT "DistanceMeters" (by decide)]
    rfl
  · intro hd
    rw [(calPiece_spec hcal).1 hd]
    simp only [hasChildTag, Elem.children, List.any_append,
      hdurT "Calories" (by decide), hahrT "Calories" (by decide),
      hmhrT "Calories" (by decide), hdistT "Calories" (by decide),
      hextT "Calories" (by decide)]
    rfl
  · simp only [hasChildTag, Elem.children, List.any_append]
    simp only [hdurT "Intensity" (by decide), hcalT "Intensity" (by decide),
      hahrT "Intensity" (by decide), hmhrT "Intensity" (by decide),
      hdistT "Intensity" (by decide)]
    rfl
  · simp only [hasChildTag, Elem.children, List.any_append]
    simp only [hdurT "TriggerMethod" (by decide), hcalT "TriggerMethod" (by decide),
      hahrT "TriggerMethod" (by decide), hmhrT "TriggerMethod" (by decide),
      hdistT "TriggerMethod" (by decide)]
    rfl

/-- The lap built from an all-empty summary, for the C10 witness. -/
def c10lap : Elem :=
  Elem.mk "Lap" [("StartTime", "S")] none
    [textElem "Intensity" "Active", textElem "TriggerMethod" "Manual"]

/-- Witness for `create_lap_empty_fields_omitted` on an all-empty summary. -/
theorem create_lap_empty_fields_omitted_witness :
    ("" = "" → hasChildTag c10lap "TotalTimeSeconds" = false)
    ∧ ("" = "" → hasChildTag c10lap "DistanceMeters" = false)
    ∧ ("" = "" → hasChildTag c10lap "Calories" = false)
    ∧ c10lap.tag = "Lap"
    ∧ c10lap.attrs = [("StartTime", "S")]
    ∧ hasChildTag c10lap "Intensity" = true
    ∧ hasChildTag c10lap "TriggerMethod" = true :=
  create_lap_empty_fields_omitted "S" "" "" "" "" "" "" "" "" "" c10lap rfl

/-- C7, amended: The AverageHeartRateBpm element is present iff the
mean-heart-rate string is non-empty and not literally `"0.0"`, and likewise
MaximumHeartRateBpm for the max-heart-rate string.  (The original claim's
"decimal value is non-zero" is refuted by `create_lap_hr_presence_cex`:
the string "0" has decimal value zero yet the element is emitted, since the
source only compares against the literal "0.0".) -/
theorem create_lap_hr_presence
    (start_time duration distance calories avg_hr max_hr avg_speed max_speed
      avg_cadence max_cadence : String) (lap : Elem)
    (h : create_lap start_time duration distance calories avg_hr max_hr avg_speed
        max_speed avg_cadence max_cadence = some lap) :
    (hasChildTag lap "AverageHeartRateBpm" = true ↔ (avg_hr ≠ "" ∧ avg_hr ≠ "0.0"))
    ∧ (hasChildTag lap "MaximumHeartRateBpm" = true ↔ (max_hr ≠ "" ∧ max_hr ≠ "0.0")) := by
  obtain ⟨dur, cal, ahr, mhr, hdur, hcal, hahr, hmhr, hlap⟩ := create_lap_shape h
  subst hlap
  have hdurT : ∀ t : String, t ≠ "TotalTimeSeconds" →
      dur.any (fun c => c.tag == t) = false :=
    fun t ht => any_tag_eq_false (durPiece_tags hdur) (fun he => ht he.symm)
  have hcalT : ∀ t : String, t ≠ "Calories" → cal.any (fun c => c.tag == t) = false :=
    fun t ht => any_tag_eq_false (calPiece_tags hcal) (fun he => ht he.symm)
  have hahrT : ∀ t : String, t ≠ "AverageHeartRateBpm" →
      ahr.any (fun c => c.tag == t) = false :=
    fun t ht => any_tag_eq_false (hrPiece_tags hahr) (fun he => ht he.symm)
  have hmhrT : ∀ t : String, t ≠ "MaximumHeartRateBpm" →
      mhr.any (fun c => c.tag == t) = false :=
    fun t ht => any_tag_eq_false (hrPiece_tags hmhr) (fun he => ht he.symm)
  have hdistT : ∀ t : String, t ≠ "DistanceMeters" →
      (distPiece distance).any (fun c => c.tag == t) = false :=
    fun t ht => any_tag_eq_false (distPiece_tags distance) (fun he => ht he.symm)
  have hextT : ∀ t : String, t ≠ "Extensions" →
      (extPiece avg_speed avg_cadence).any (fun c => c.tag == t) = false :=
    fun t ht => any_tag_eq_false (extPiece_tags avg_speed avg_cadence) (fun he => ht he.symm)
  constructor
  · simp only [hasChildTag, Elem.children, List.any_append,
      hdurT "AverageHeartRateBpm" (by decide), hcalT "AverageHeartRateBpm" (by decide),
      hmhrT "AverageHeartRateBpm" (by decide), hdistT "AverageHeartRateBpm" (by decide),
      hextT "AverageHeartRateBpm" (by decide)]
    by_cases hc : avg_hr ≠ "" ∧ avg_hr ≠ "0.0"
    · obtain ⟨q, hq, hl⟩ := (hrPiece_spec hahr).2 hc
      rw [hl]
      simp [hc, Elem.tag, textElem]
    · rw [(hrPiece_spec hahr).1 hc]
      simp [hc, Elem.tag, textElem]
  · simp only [hasChildTag, Elem.children, List.any_append,
      hdurT "MaximumHeartRateBpm" (by decide), hcalT "MaximumHeartRateBpm" (by decide),
      hahrT "MaximumHeartRateBpm" (by decide), hdistT "MaximumHeartRateBpm" (by decide),
      hextT "MaximumHeartRateBpm" (by decide)]
    by_cases hc : max_hr ≠ "" ∧ max_hr ≠ "0.0"
    · obtain ⟨q, hq, hl⟩ := (hrPiece_spec hmhr).2 hc
      rw [hl]
      simp [hc, Elem.tag, textElem]
    · rw [(hrPiece_spec hmhr).1 hc]
      simp [hc, Elem.tag, textElem]

/-- The lap used by the `create_lap_hr_presence` witness. -/
def c7lap : Elem :=
  Elem.mk "Lap" [("StartTime", "S")] none
    [Elem.mk "AverageHeartRateBpm" [] none [textElem "Value" "120"],
     Elem.mk "MaximumHeartRateBpm" [] none [textElem "Value" "77"],
     textElem "Intensity" "Active", textElem "TriggerMethod" "Manual"]

/-- Witness for `create_lap_hr_presence` at avg 120.5 bpm, max 77 bpm. -/
theorem create_lap_hr_presence_witness :
    (hasChildTag c7lap "AverageHeartRateBpm" = true ↔ ("120.5" ≠ "" ∧ "120.5" ≠ "0.0"))
    ∧ (hasChildTag c7lap "MaximumHeartRateBpm" = true ↔ ("77" ≠ "" ∧ "77" ≠ "0.0")) :=
  create_lap_hr_presence "S" "" "" "" "120.5" "77" "" "" "" "" c7lap rfl

/-- C7, counterexample to the original claim: With mean heart rate
"0" — non-empty, decimal value zero, but different from the literal
"0.0" — the AverageHeartRateBpm element is emitted even though the claim
says it is present only if the decimal value is non-zero. -/
theorem create_lap_hr_presence_cex :
    (create_lap "S" "" "" "" "0" "" "" "" "" "").map
        (fun lap => hasChildTag lap "AverageHeartRateBpm") = some true
    ∧ pyFloat "0" = some 0 :=
  ⟨rfl, by decide⟩

/-- C6, amended: For a non-empty parsable total-calories string, the
Calories element holds the decimal value truncated toward zero
(`str(int(float(calories)))`), not rounded to nearest.  (The original
"rounded to the nearest integer" is refuted by
`create_lap_calories_truncated_cex` at "250.7".) -/
theorem create_lap_calories_truncated
    (start_time duration distance calories avg_hr max_hr avg_speed max_speed
      avg_cadence max_cadence : String) (lap : Elem) (q : ℚ)
    (h : create_lap start_time duration distance calories avg_hr max_hr avg_speed
        max_speed avg_cadence max_cadence = some lap)
    (hne : calories ≠ "") (hq : pyFloat calories = some q) :
    tagTexts lap "Calories" = [some (toString (truncQ q))] := by
  obtain ⟨dur, cal, ahr, mhr, hdur, hcal, hahr, hmhr, hlap⟩ := create_lap_shape h
  subst hlap
  obtain ⟨q2, hq2, hl⟩ := (calPiece_spec hcal).2 hne
  rw [hq2] at hq
  obtain rfl : q2 = q := Option.some.inj hq
  have f1 : dur.filterMap (fun c => if c.tag == "Calories" then some c.text else none) = [] :=
    filterMap_tag_eq_nil (durPiece_tags hdur) (by decide)
  have f2 : (distPiece distance).filterMap
      (fun c => if c.tag == "Calories" then some c.text else none) = [] :=
    filterMap_tag_eq_nil (distPiece_tags distance) (by decide)
  have f3 : ahr.filterMap (fun c => if c.tag == "Calories" then some c.text else none) = [] :=
    filterMap_tag_eq_nil (hrPiece_tags hahr) (by decide)
  have f4 : mhr.filterMap (fun c => if c.tag == "Calories" then some c.text else none) = [] :=
    filterMap_tag_eq_nil (hrPiece_tags hmhr) (by decide)
  have f5 : (extPiece avg_speed avg_cadence).filterMap
      (fun c => if c.tag == "Calories" then some c.text else none) = [] :=
    filterMap_tag_eq_nil (extPiece_tags avg_speed avg_cadence) (by decide)
  rw [hl]
  simp only [tagTexts, Elem.children, List.filterMap_append, f1, f2, f3, f4, f5]
  rfl

/-- The lap used by the `create_lap_calories_truncated` witness. -/
def c6lap : Elem :=
  Elem.mk "Lap" [("StartTime", "S")] none
    [textElem "Calories" "250", textElem "Intensity" "Active",
     textElem "TriggerMethod" "Manual"]

/-- Witness for `create_lap_calories_truncated` at calories "250.7". -/
theorem create_lap_calories_truncated_witness :
    tagTexts c6lap "Calories" = [some (toString (truncQ (mkRat 2507 10)))] :=
  create_lap_calories_truncated "S" "" "" "250.7" "" "" "" "" "" "" c6lap
    (mkRat 2507 10) rfl (by decide) (by decide)

/-- C6, counterexample to the original claim: For calories "250.7"
(decimal value 2507/10) the emitted text is "250" (truncation), while
rounding to the nearest integer gives 251. -/
theorem create_lap_calories_truncated_cex :
    (create_lap "S" "" "" "250.7" "" "" "" "" "" "").map (fun lap => tagTexts lap "Calories")
      = some [some "250"]
    ∧ pyFloat "250.7" = some (mkRat 2507 10)
    ∧ specRoundNearest (mkRat 2507 10) = 251
    ∧ toString (251 : ℤ) = "251"
    ∧ ("250" : String) ≠ "251" :=
  ⟨rfl, by decide, by decide, by decide, by decide⟩

/-- C8, amended: The Extensions block is emitted iff at least one of
the average-speed / average-cadence strings is non-empty (Python
truthiness), regardless of the `"0.0"` rule; within it, AvgSpeed and
AvgRunCadence each appear iff their own string is non-empty and not
literally `"0.0"`.  (The original claim — block only under the full
presence rule — is refuted by `create_lap_extensions_presence_cex`, where
avg_speed `"0.0"` emits an Extensions block with an empty LX.) -/
theorem create_lap_extensions_presence
    (start_time duration distance calories avg_hr max_hr avg_speed max_speed
      avg_cadence max_cadence : String) (lap : Elem)
    (h : create_lap start_time duration distance calories avg_hr max_hr avg_speed
        max_speed avg_cadence max_cadence = some lap) :
    (hasChildTag lap "Extensions" = true ↔ (avg_speed ≠ "" ∨ avg_cadence ≠ ""))
    ∧ (ns3_tag "AvgSpeed" ∈ extInnerTags lap ↔ (avg_speed ≠ "" ∧ avg_speed ≠ "0.0"))
    ∧ (ns3_tag "AvgRunCadence" ∈ extInnerTags lap ↔ (avg_cadence ≠ "" ∧ avg_cadence ≠ "0.0")) := by
  obtain ⟨dur, cal, ahr, mhr, hdur, hcal, hahr, hmhr, hlap⟩ := create_lap_shape h
  subst hlap
  have a1 : dur.any (fun c => c.tag == "Extensions") = false :=
    any_tag_eq_false (durPiece_tags hdur) (by decide)
  have a2 : (distPiece distance).any (fun c => c.tag == "Extensions") = false :=
    any_tag_eq_false (distPiece_tags distance) (by decide)
  have a3 : cal.any (fun c => c.tag == "Extensions") = false :=
    any_tag_eq_false (calPiece_tags hcal) (by decide)
  have a4 : ahr.any (fun c => c.tag == "Extensions") = false :=
    any_tag_eq_false (hrPiece_tags hahr) (by decide)
  have a5 : mhr.any (fun c => c.tag == "Extensions") = false :=
    any_tag_eq_false (hrPiece_tags hmhr) (by decide)
  have g1 : dur.filter (fun c => c.tag == "Extensions") = [] :=
    filter_tag_eq_nil (durPiece_tags hdur) (by decide)
  have g2 : (distPiece distance).filter (fun c => c.tag == "Extensions") = [] :=
    filter_tag_eq_nil (distPiece_tags distance) (by decide)
  have g3 : cal.filter (fun c => c.tag == "Extensions") = [] :=
    filter_tag_eq_nil (calPiece_tags hcal) (by decide)
  have g4 : ahr.filter (fun c => c.tag == "Extensions") = [] :=
    filter_tag_eq_nil (hrPiece_tags hahr) (by decide)
  have g5 : mhr.filter (fun c => c.tag == "Extensions") = [] :=
    filter_tag_eq_nil (hrPiece_tags hmhr) (by decide)
  refine ⟨?_, ?_, ?_⟩
  · simp only [hasChildTag, Elem.children, List.any_append, a1, a2, a3, a4, a5]
    by_cases hc : avg_speed ≠ "" ∨ avg_cadence ≠ ""
    · unfold extPiece
      rw [if_pos hc]
      simp [hc, Elem.tag]
    · unfold extPiece
      rw [if_neg hc]
      simp [hc, Elem.tag, textElem]
  · simp only [extInnerTags, Elem.children, List.filter_append, g1, g2, g3, g4, g5]
    by_cases hc : avg_speed ≠ "" ∨ avg_cadence ≠ ""
    · unfold extPiece
      rw [if_pos hc]
      by_cases hs : avg_speed ≠ "" ∧ avg_speed ≠ "0.0"
      · rw [if_pos hs]
        simp [hs, Elem.tag, Elem.children, textElem, ns3_tag]
      · rw [if_neg hs]
        by_cases hcad : avg_cadence ≠ "" ∧ avg_cadence ≠ "0.0"
        · rw [if_pos hcad]
          simp [hs, Elem.tag, Elem.children, textElem, ns3_tag]
        · rw [if_neg hcad]
          simp [hs, Elem.tag, Elem.children, textElem, ns3_tag]
    · unfold extPiece
      rw [if_neg hc]
      have hse : avg_speed = "" := by
        by_contra hne
        exact hc (Or.inl hne)
      simp [hse, Elem.tag, textElem]
  · simp only [extInnerTags, Elem.children, List.filter_append, g1, g2, g3, g4, g5]
    by_cases hc : avg_speed ≠ "" ∨ avg_cadence ≠ ""
    · unfold extPiece
      rw [if_pos hc]
      by_cases hcad : avg_cadence ≠ "" ∧ avg_cadence ≠ "0.0"
      · rw [if_pos hcad]
        by_cases hs : avg_speed ≠ "" ∧ avg_speed ≠ "0.0"
        · rw [if_pos hs]
          simp [hcad, Elem.tag, Elem.children, textElem, ns3_tag]
        · rw [if_neg hs]
          simp [hcad, Elem.tag, Elem.children, textElem, ns3_tag]
      · rw [if_neg hcad]
        by_cases hs : avg_speed ≠ "" ∧ avg_speed ≠ "0.0"
        · rw [if_pos hs]
          simp [hcad, Elem.tag, Elem.children, textElem, ns3_tag]
        · rw [if_neg hs]
          simp [hcad, Elem.tag, Elem.children, textElem, ns3_tag]
    · unfold extPiece
      rw [if_neg hc]
      have hse : avg_cadence = "" := by
        by_contra hne
        exact hc (Or.inr hne)
      simp [hse, Elem.tag, textElem]

/-- The lap used by the `create_lap_extensions_presence` witness. -/
def c8lap : Elem :=
  Elem.mk "Lap" [("StartTime", "S")] none
    [textElem "Intensity" "Active", textElem "TriggerMethod" "Manual",
     Elem.mk "Extensions" [] none
       [Elem.mk (ns3_tag "LX") [] none [textElem (ns3_tag "AvgSpeed") "3.5"]]]

/-- Witness for `create_lap_extensions_presence` at avg_speed "3.5". -/
theorem create_lap_extensions_presence_witness :
    (hasChildTag c8lap "Extensions" = true ↔ (("3.5" : String) ≠ "" ∨ ("" : String) ≠ ""))
    ∧ (ns3_tag "AvgSpeed" ∈ extInnerTags c8lap ↔
        (("3.5" : String) ≠ "" ∧ ("3.5" : String) ≠ "0.0"))
    ∧ (ns3_tag "AvgRunCadence" ∈ extInnerTags c8lap ↔
        (("" : String) ≠ "" ∧ ("" : String) ≠ "0.0")) :=
  create_lap_extensions_presence "S" "" "" "" "" "" "3.5" "" "" "" c8lap rfl

/-- C8, counterexample to the original claim: With avg_speed "0.0"
and avg_cadence "", the Extensions block is emitted (the source tests only
truthiness) although neither value satisfies the numeric presence rule
(non-empty and not the zero-decimal string). -/
theorem create_lap_extensions_presence_cex :
    (create_lap "S" "" "" "" "" "" "0.0" "" "" "").map
        (fun lap => hasChildTag lap "Extensions") = some true
    ∧ ¬(("0.0" : String) ≠ "" ∧ ("0.0" : String) ≠ "0.0")
    ∧ ¬(("" : String) ≠ "" ∧ ("" : String) ≠ "0.0") :=
  ⟨rfl, by decide, by decide⟩

theorem cons_length_lt_two_iff {x : Elem} {l : List Elem} :
    (x :: l).length < 2 ↔ x :: l = [x] := by
  simp only [List.length_cons, List.cons.injEq, true_and]
  constructor
  · intro h
    exact List.length_eq_zero.mp (by omega)
  · intro h
    simp [h]

/-- C5: `create_trackpoint` returns `none` exactly when the constructed
trackpoint has fewer than 2 children, i.e. when only the Time child is
present; and `build_xml` attaches a Track child to the lap exactly when at
least one trackpoint is non-absent, the Track containing exactly the
non-absent trackpoints in order. -/
theorem create_trackpoint_suppression (d : MSample) (a_id sport : String) (lap : Elem)
    (tps : List (Option Elem)) :
    (create_trackpoint d = none ↔ (trackpointElem d).children.length < 2)
    ∧ ((trackpointElem d).children.length < 2 ↔
        (trackpointElem d).children = [textElem "Time" d.time])
    ∧ (build_xml a_id sport lap tps).2.children
        = lap.children ++ (if (tps.filterMap id).isEmpty then []
            else [Elem.mk "Track" [] none (tps.filterMap id)]) := by
  refine ⟨?_, ?_, ?_⟩
  · unfold create_trackpoint
    by_cases hlen : 1 < (trackpointElem d).children.length
    · rw [if_pos hlen]
      simp
      omega
    · rw [if_neg hlen]
      simp
      omega
  · have hch : (trackpointElem d).children =
        textElem "Time" d.time :: (posPart d ++ hrPart d ++ cadPart d) := rfl
    rw [hch]
    exact cons_length_lt_two_iff
  · cases lap with
    | mk t a x c =>
      cases hfe : tps.filterMap id with
      | nil => simp [build_xml, hfe, Elem.children, Elem.appendChild]
      | cons e es => simp [build_xml, hfe, Elem.children, Elem.appendChild]

/-- C9: `build_xml` mutates the lap passed to it: whenever at least one
trackpoint is non-absent, it appends a Track child to the caller's lap, so
the lap is not unchanged after the call. -/
theorem build_xml_mutates_lap (a_id sport : String) (lap : Elem)
    (tps : List (Option Elem)) (h : tps.filterMap id ≠ []) :
    (build_xml a_id sport lap tps).2 ≠ lap
    ∧ (build_xml a_id sport lap tps).2.children
        = lap.children ++ [Elem.mk "Track" [] none (tps.filterMap id)] := by
  obtain ⟨t, a, x, c⟩ := lap
  have hie : (tps.filterMap id).isEmpty = false := by
    cases hfe : tps.filterMap id with
    | nil => exact absurd hfe h
    | cons e es => rfl
  have hch : (build_xml a_id sport (Elem.mk t a x c) tps).2.children
      = (Elem.mk t a x c).children ++ [Elem.mk "Track" [] none (tps.filterMap id)] := by
    simp [build_xml, Elem.children, Elem.appendChild, hie]
  refine ⟨?_, hch⟩
  intro he
  have hlen := congrArg (fun el => el.children.length) he
  simp only at hlen
  rw [hch] at hlen
  simp [Elem.children] at hlen

/-- Concrete lap for the `build_xml` witnesses and counterexample (equal to
`create_lap` on an all-empty summary). -/
def c4lap : Elem :=
  Elem.mk "Lap" [("StartTime", "S")] none
    [textElem "Intensity" "Active", textElem "TriggerMethod" "Manual"]

/-- Concrete non-absent trackpoint input. -/
def c4tp : Option Elem :=
  create_trackpoint { time := "T", latitude := some 1, longitude := some 2 }

/-- Witness for `build_xml_mutates_lap` on one position-bearing trackpoint. -/
theorem build_xml_mutates_lap_witness :
    (build_xml "S" "Running" c4lap [c4tp]).2 ≠ c4lap
    ∧ (build_xml "S" "Running" c4lap [c4tp]).2.children
        = c4lap.children ++ [Elem.mk "Track" [] none ([c4tp].filterMap id)] :=
  build_xml_mutates_lap "S" "Running" c4lap [c4tp]
    (by
      have hc : c4tp =
          some (trackpointElem { time := "T", latitude := some 1, longitude := some 2 }) := rfl
      rw [hc]
      simp)

/-- C4, amended: A second `build_xml` call on the same lap object
reproduces the first call's bytes when no trackpoint is non-absent (then
the lap is left unchanged); in general it does not, because the first call
appended a Track to the lap (see `build_xml_idempotence_cex`). -/
theorem build_xml_idempotent_no_trackpoints (a_id sport : String) (lap : Elem)
    (tps : List (Option Elem)) (h : tps.filterMap id = []) :
    (build_xml a_id sport lap tps).2 = lap
    ∧ (build_xml a_id sport (build_xml a_id sport lap tps).2 tps).1
      = (build_xml a_id sport lap tps).1 := by
  have h2 : (build_xml a_id sport lap tps).2 = lap := by
    simp [build_xml, h, Elem.children]
  exact ⟨h2, by rw [h2]⟩

/-- Witness for `build_xml_idempotent_no_trackpoints` on a single absent
trackpoint. -/
theorem build_xml_idempotent_no_trackpoints_witness :
    (build_xml "S" "Running" c4lap [none]).2 = c4lap
    ∧ (build_xml "S" "Running" (build_xml "S" "Running" c4lap [none]).2 [none]).1
      = (build_xml "S" "Running" c4lap [none]).1 :=
  build_xml_idempotent_no_trackpoints "S" "Running" c4lap [none] rfl

set_option maxRecDepth 8000 in
/-- C4, counterexample to the original claim: Calling `build_xml` a
second time with the very same lap object and trackpoint list does NOT
reproduce the first output byte-for-byte: the first call appended a Track
to the lap, so the second document serializes differently.  (In lxml the
second call would additionally move the trackpoint elements out of the
first Track into the new one — re-parenting the value model does not
track — leaving the first Track empty; under either reading the second
output has an extra Track child and differs from the first.) -/
theorem build_xml_idempotence_cex :
    create_lap "S" "" "" "" "" "" "" "" "" "" = some c4lap
    ∧ (build_xml "S" "Running" (build_xml "S" "Running" c4lap [c4tp]).2 [c4tp]).1
      ≠ (build_xml "S" "Running" c4lap [c4tp]).1 :=
  ⟨rfl, by decide⟩
